import Mathlib

/-!
Verification of the Promptitude synchronization/activation core.

Shallow embedding of `src/syncManager.ts`, `src/storage/repositoryStorage.ts`
and `src/constant.ts`. Strings are modelled as lists of characters
(`Str := List Char`); the bytes of a UTF-8 encoded JavaScript string are
modelled as a list of naturals below 256.
-/

namespace Promptitude

abbrev Str := List Char

def str (s : String) : Str := s.data

/-! Base64url alphabet, as used by Buffer.toString with base64url:
values 0-25 map to A-Z, 26-51 to a-z, 52-61 to 0-9, 62 to the dash
and 63 to the underscore. Characters are represented by their code points. -/

def b64Char (v : Nat) : Nat :=
  if v < 26 then 65 + v
  else if v < 52 then 97 + (v - 26)
  else if v < 62 then 48 + (v - 52)
  else if v = 62 then 45
  else 95

def b64Val (c : Nat) : Nat :=
  if 65 ≤ c ∧ c ≤ 90 then c - 65
  else if 97 ≤ c ∧ c ≤ 122 then 26 + (c - 97)
  else if 48 ≤ c ∧ c ≤ 57 then 52 + (c - 48)
  else if c = 45 then 62
  else if c = 95 then 63
  else 0

/-- Base64url encoding of a byte sequence, without padding, as produced by
Buffer.from(url, utf8).toString(base64url) in `encodeRepositorySlug`
(src/storage/repositoryStorage.ts:13-21). Output is a list of char codes. -/
def b64urlEncode : List Nat → List Nat
  | [] => []
  | [b1] => [b64Char (b1 / 4), b64Char (b1 % 4 * 16)]
  | [b1, b2] => [b64Char (b1 / 4), b64Char (b1 % 4 * 16 + b2 / 16), b64Char (b2 % 16 * 4)]
  | b1 :: b2 :: b3 :: rest =>
      b64Char (b1 / 4) :: b64Char (b1 % 4 * 16 + b2 / 16) ::
      b64Char (b2 % 16 * 4 + b3 / 64) :: b64Char (b3 % 64) :: b64urlEncode rest

/-- Base64url decoding back to bytes, as done by Buffer.from(slug, base64url)
in `decodeRepositorySlug` (src/storage/repositoryStorage.ts:28-36). -/
def b64urlDecode : List Nat → List Nat
  | c1 :: c2 :: c3 :: c4 :: rest =>
      (b64Val c1 * 4 + b64Val c2 / 16) ::
      (b64Val c2 % 16 * 16 + b64Val c3 / 4) ::
      (b64Val c3 % 4 * 64 + b64Val c4) :: b64urlDecode rest
  | [c1, c2] => [b64Val c1 * 4 + b64Val c2 / 16]
  | [c1, c2, c3] => [b64Val c1 * 4 + b64Val c2 / 16, b64Val c2 % 16 * 16 + b64Val c3 / 4]
  | _ => []

/-- Model of `encodeRepositorySlug` (src/storage/repositoryStorage.ts:13-21):
the URL is given by its UTF-8 bytes; the slug is the base64url character list. -/
def encodeRepositorySlug (urlBytes : List Nat) : Str :=
  (b64urlEncode urlBytes).map Char.ofNat

/-- Model of `decodeRepositorySlug` (src/storage/repositoryStorage.ts:28-36). -/
def decodeRepositorySlug (slug : Str) : List Nat :=
  b64urlDecode (slug.map Char.toNat)

/-! String helpers mirroring the JavaScript operations used in syncManager.ts. -/

/-- JavaScript s.split(sep) for a single-character separator. -/
def splitOnChar (sep : Char) : Str → List Str
  | [] => [[]]
  | c :: rest =>
    match splitOnChar sep rest with
    | [] => if c = sep then [[], []] else [[c]]
    | h :: t => if c = sep then [] :: h :: t else (c :: h) :: t

/-- Helper for splitting on a nonempty string separator, structurally
recursive on a fuel argument so that it reduces inside the kernel; each
step consumes at least one character, so fuel equal to the length of the
input suffices and the zero-fuel branch is unreachable from splitOnStr. -/
def splitOnStrAux (sep : Str) : Nat → Str → List Str
  | _, [] => [[]]
  | 0, s => [s]
  | fuel + 1, c :: rest =>
    if sep ≠ [] ∧ sep.isPrefixOf (c :: rest) then
      [] :: splitOnStrAux sep fuel (rest.drop (sep.length - 1))
    else
      match splitOnStrAux sep fuel rest with
      | [] => [[c]]
      | h :: t => (c :: h) :: t

/-- JavaScript s.split(sep) for a string separator; the separators used in the
source (github.com/ and dev.azure.com/) are nonempty. -/
def splitOnStr (sep : Str) (s : Str) : List Str :=
  match sep with
  | [] => [s]
  | _ :: _ => splitOnStrAux sep s.length s

/-- JavaScript replace of every backslash by a forward slash. -/
def normalizeSlashes (s : Str) : Str :=
  s.map (fun c => if c = '\\' then '/' else c)

/-- JavaScript replace of leading slashes (the regex anchored slash-plus). -/
def dropLeadingSlashes : Str → Str
  | '/' :: rest => dropLeadingSlashes rest
  | s => s

/-- FileSystemManager.joinPath / path.join, modelled as separator insertion.
Modelled from the spec: src/utils/fileSystem.ts is not under src; the spec
(section 6) only requires whole-path operations, and all call sites join a
directory with a bare file name. -/
def joinPath (dir name : Str) : Str := dir ++ '/' :: name

/-- path.basename, modelled as the last slash-separated segment. Blob paths
from the tree never carry a trailing separator. -/
def getBasename (s : Str) : Str :=
  ((splitOnChar '/' s).getLast?).getD s

/-- JavaScript fileName.lastIndexOf of the dot character, as an Option. -/
def lastDotIdx (s : Str) : Option Nat :=
  match s.reverse.findIdx? (fun c => decide (c = '.')) with
  | some j => some (s.length - 1 - j)
  | none => none

/-- Model of `extractRepositoryUrlFromTargetPath` (src/syncManager.ts:1053-1076):
normalize separators, split on slashes, find the repos marker segment, then
decode the following segment by turning underscores into slashes and prepending
the https scheme. -/
def extractRepositoryUrlFromTargetPath (targetPath : Str) : Option Str :=
  let normalizedPath := normalizeSlashes targetPath
  let pathParts := splitOnChar '/' normalizedPath
  match pathParts.findIdx? (fun part => decide (part = str "repos")) with
  | some reposIndex =>
    if reposIndex + 1 < pathParts.length then
      let encodedRepoUrl := (pathParts.get? (reposIndex + 1)).getD []
      some (str "https://" ++ encodedRepoUrl.map (fun c => if c = '_' then '/' else c))
    else none
  | none => none

/-- JavaScript replace of the anchored regex https?:// by the empty string. -/
def dropScheme (s : Str) : Str :=
  if (str "https://").isPrefixOf s then s.drop 8
  else if (str "http://").isPrefixOf s then s.drop 7
  else s

/-- JavaScript replace of the anchored regex www dot by the empty string. -/
def dropWww (s : Str) : Str :=
  if (str "www.").isPrefixOf s then s.drop 4 else s

/-- JavaScript replace of the anchored trailing dot-git by the empty string. -/
def dropGitSuffix (s : Str) : Str :=
  if (str ".git").isSuffixOf s then s.take (s.length - 4) else s

/-- Model of `getRepositoryIdentifier` (src/syncManager.ts:804-840). -/
def getRepositoryIdentifier (repositoryUrl : Str) : Str :=
  let identifier := dropGitSuffix (dropWww (dropScheme repositoryUrl))
  let ghParts := splitOnChar '/' (((splitOnStr (str "github.com/") identifier).get? 1).getD [])
  if (str "github.com/") <:+: identifier ∧ 2 ≤ ghParts.length then
    (ghParts.get? 0).getD [] ++ '-' :: (ghParts.get? 1).getD []
  else
    let azParts := (splitOnChar '/' identifier).filter
      (fun p => decide (p ≠ [] ∧ p ≠ str "_git"))
    if (str "dev.azure.com/") <:+: identifier ∧ 4 ≤ azParts.length then
      (azParts.get? 1).getD [] ++ '-' :: (azParts.get? 2).getD [] ++
        '-' :: (azParts.get? 3).getD []
    else
      let pathParts := (splitOnChar '/' identifier).filter (fun p => decide (p ≠ []))
      if 2 ≤ pathParts.length then
        (pathParts.get? (pathParts.length - 2)).getD [] ++
          '-' :: (pathParts.get? (pathParts.length - 1)).getD []
      else (pathParts.get? (pathParts.length - 1)).getD (str "repo")

/-- Model of `getUniqueWorkspaceName` (src/syncManager.ts:763-797). The mirror
state is given as a predicate mirrorHas url fileName stating that the file
exists in the on-disk mirror of that repository; cfg is the configured
repository URL list. -/
def getUniqueWorkspaceName (cfg : List Str) (mirrorHas : Str → Str → Bool)
    (fileName repositoryUrl : Str) : Str :=
  let reposWithFile := cfg.filter (fun u => mirrorHas u fileName)
  if reposWithFile.length ≤ 1 then fileName
  else
    let repoIdentifier := getRepositoryIdentifier repositoryUrl
    match lastDotIdx fileName with
    | some lastDotIndex =>
      if 0 < lastDotIndex then
        fileName.take lastDotIndex ++ '@' :: repoIdentifier ++ fileName.drop lastDotIndex
      else fileName ++ '@' :: repoIdentifier
    | none => fileName ++ '@' :: repoIdentifier

def exampleUrlBytes : List Nat := (str "https://github.com/a/b").map Char.toNat

/-! Activation-directory model. The flat prompts directory is an association
list from full target paths to directory entries; an entry is either a symlink
(recording its target path, as readlink would) or a regular file with content.
The repository mirror lives under a disjoint root and is modelled separately,
so activation operations cannot touch mirror state by construction, matching
the disjoint on-disk roots (globalStorage repos vs User prompts). -/

inductive FsEntry where
  | symlink (target : Str)
  | file (content : Str)
  deriving DecidableEq, Repr

abbrev ActDir := List (Str × FsEntry)

def lookupEntry (d : ActDir) (name : Str) : Option FsEntry :=
  (d.find? (fun p => decide (p.1 = name))).map (·.2)

def removeEntry (d : ActDir) (name : Str) : ActDir :=
  d.filter (fun p => decide (p.1 ≠ name))

inductive Platform where
  | win32
  | unix
  deriving DecidableEq, Repr

instance exceptStrDecEq : DecidableEq (Except Str Str) := fun x y =>
  match x, y with
  | Except.ok a, Except.ok b =>
    if h : a = b then isTrue (by rw [h])
    else isFalse (by intro hh; injection hh; exact h ‹_›)
  | Except.error a, Except.error b =>
    if h : a = b then isTrue (by rw [h])
    else isFalse (by intro hh; injection hh; exact h ‹_›)
  | Except.ok _, Except.error _ => isFalse (by intro hh; exact Except.noConfusion hh)
  | Except.error _, Except.ok _ => isFalse (by intro hh; exact Except.noConfusion hh)

/-- Outcome of the underlying fs.symlink call: success, permission denial
(EPERM), or some other error. -/
inductive SymlinkOutcome where
  | ok
  | eperm
  | other
  deriving DecidableEq, Repr

/-- Mirror path for a repository, storage root slash repos slash slug
(`getRepositoryPath`, src/syncManager.ts:751-755). -/
def getRepositoryPath (url : Str) : Str :=
  joinPath (joinPath (str "<storage>") (str "repos")) (encodeRepositorySlug (url.map Char.toNat))

/-- Model of `createPromptSymlink` (src/syncManager.ts:846-894): remove an
existing entry at the target, then create a symlink; on EPERM under win32 fall
back to copying the source content into a plain file; otherwise the error
propagates. Returns the new directory and an error when one is thrown; on a
thrown error the removal of the pre-existing target has already happened. -/
def createPromptSymlink (p : Platform) (so : SymlinkOutcome) (sourceContent : Option Str)
    (d : ActDir) (sourcePath targetPath : Str) : ActDir × Option Str :=
  let d1 := if (lookupEntry d targetPath).isSome then removeEntry d targetPath else d
  match so with
  | .ok => ((targetPath, FsEntry.symlink sourcePath) :: d1, none)
  | .eperm =>
    if p = Platform.win32 then
      match sourceContent with
      | some c => ((targetPath, FsEntry.file c) :: d1, none)
      | none => (d1, some (str "failed to copy file as fallback"))
    else (d1, some (str "failed to create symlink"))
  | .other => (d1, some (str "failed to create symlink"))

/-- Model of `removePromptSymlink` (src/syncManager.ts:900-923): delete the
target if it is a symlink; on win32 also delete a plain file (the copy
fallback platform); on other platforms a plain file is only warned about. -/
def removePromptSymlink (p : Platform) (d : ActDir) (targetPath : Str) : ActDir :=
  match lookupEntry d targetPath with
  | none => d
  | some (FsEntry.symlink _) => removeEntry d targetPath
  | some (FsEntry.file _) =>
    if p = Platform.win32 then removeEntry d targetPath else d

/-- Model of `deactivatePrompt` (src/syncManager.ts:1185-1196). -/
def deactivatePrompt (p : Platform) (promptsDir : Str) (d : ActDir) (promptPath : Str) :
    ActDir :=
  removePromptSymlink p d (joinPath promptsDir promptPath)

/-- Model of `activatePrompt` (src/syncManager.ts:1112-1161). The mirror
state is the function mirrors url fileName giving the stored content;
cfg is the configured repository URL list used for collision resolution.
Returns the directory state together with the thrown error or the returned
workspace name. -/
def activatePrompt (p : Platform) (so : SymlinkOutcome) (cfg : List Str)
    (mirrors : Str → Str → Option Str) (promptsDir : Str) (d : ActDir)
    (promptPath : Str) (repositoryUrl : Option Str) : ActDir × Except Str Str :=
  match repositoryUrl with
  | none => (d, Except.error (str "Repository URL is required to activate prompt"))
  | some url =>
    match mirrors url promptPath with
    | none => (d, Except.error (str "Source file does not exist"))
    | some content =>
      let workspaceName :=
        getUniqueWorkspaceName cfg (fun u f => (mirrors u f).isSome) promptPath url
      let targetPath := joinPath promptsDir workspaceName
      let sourcePath := joinPath (getRepositoryPath url) promptPath
      match createPromptSymlink p so (some content) d sourcePath targetPath with
      | (d2, none) => (d2, Except.ok workspaceName)
      | (d2, some e) => (d2, Except.error e)

/-! Sync-engine model (constants from src/constant.ts, filter and loop from
src/syncManager.ts). -/

def REPO_SYNC_CHAT_MODE_PATH : Str := str "agents/"
def REPO_SYNC_CHAT_MODE_LEGACY_PATH : Str := str "chatmodes/"
def REPO_SYNC_CHAT_MODE_LEGACY_SINGULAR_PATH : Str := str "chatmode/"
def REPO_SYNC_INSTRUCTIONS_PATH : Str := str "instructions/"
def REPO_SYNC_PROMPT_PATH : Str := str "prompts/"

inductive TreeType where
  | blob
  | tree
  deriving DecidableEq, Repr

structure GitTreeItem where
  path : Str
  type : TreeType
  deriving DecidableEq, Repr

structure SyncFlags where
  syncChatmode : Bool
  syncInstructions : Bool
  syncPrompt : Bool
  deriving DecidableEq, Repr

def allowedPaths (fl : SyncFlags) : List Str :=
  (if fl.syncChatmode then
    [REPO_SYNC_CHAT_MODE_PATH, REPO_SYNC_CHAT_MODE_LEGACY_PATH,
      REPO_SYNC_CHAT_MODE_LEGACY_SINGULAR_PATH] else []) ++
  (if fl.syncInstructions then [REPO_SYNC_INSTRUCTIONS_PATH] else []) ++
  (if fl.syncPrompt then [REPO_SYNC_PROMPT_PATH] else [])

/-- Model of `filterRelevantFiles` (src/syncManager.ts:154-204): keep blob
entries whose normalized path starts with an enabled category directory and
whose raw path ends in the markdown or text extension. -/
def filterRelevantFiles (fl : SyncFlags) (tree : List GitTreeItem) : List GitTreeItem :=
  let allowed := allowedPaths fl
  if allowed.length = 0 then []
  else tree.filter (fun item =>
    let isBlob := decide (item.type = TreeType.blob)
    let normalizedPath := dropLeadingSlashes (normalizeSlashes item.path)
    let matchesPath := allowed.any
      (fun ap => (dropLeadingSlashes (normalizeSlashes ap)).isPrefixOf normalizedPath)
    let isRelevantFile :=
      (str ".md").isSuffixOf item.path || (str ".txt").isSuffixOf item.path
    isBlob && matchesPath && isRelevantFile)

/-- Global durable state: the mirror keyed by (repository URL, file name) and
the activation directory. The key pair stands for the on-disk path, storage
root slash repos slash slug(url) slash fileName, which determines and is
determined by the pair since the slug encoding is injective on URLs and file
names are bare basenames. -/
structure SyncState where
  mirrors : List ((Str × Str) × Str)
  actDir : ActDir
  deriving DecidableEq

def lookupMirror (m : List ((Str × Str) × Str)) (url fileName : Str) : Option Str :=
  (m.find? (fun p => decide (p.1 = (url, fileName)))).map (·.2)

def setMirror (m : List ((Str × Str) × Str)) (url fileName content : Str) :
    List ((Str × Str) × Str) :=
  ((url, fileName), content) :: m.filter (fun p => decide (p.1 ≠ (url, fileName)))

def mirrorsFun (m : List ((Str × Str) × Str)) : Str → Str → Option Str :=
  fun u f => lookupMirror m u f

/-- Model of `shouldUpdateFile` (src/syncManager.ts:429-440): update when the
mirror file is absent or its stored content differs from the new content. -/
def shouldUpdateFile (m : List ((Str × Str) × Str)) (url fileName newContent : Str) : Bool :=
  match lookupMirror m url fileName with
  | none => true
  | some existing => decide (existing ≠ newContent)

/-- Model of `updateActivePromptSymlink` (src/syncManager.ts:1081-1107): if a
symlink for the computed workspace name exists, remove it and recreate it
against the current mirror path; errors are swallowed. -/
def updateActivePromptSymlink (p : Platform) (so : SymlinkOutcome) (cfg : List Str)
    (m : List ((Str × Str) × Str)) (promptsDir : Str) (d : ActDir)
    (fileName url : Str) : ActDir :=
  let workspaceName := getUniqueWorkspaceName cfg (fun u f => (mirrorsFun m u f).isSome) fileName url
  let workspacePath := joinPath promptsDir workspaceName
  match lookupEntry d workspacePath with
  | some (FsEntry.symlink _) =>
    let d1 := removePromptSymlink p d workspacePath
    (createPromptSymlink p so (mirrorsFun m url fileName) d1
      (joinPath (getRepositoryPath url) fileName) workspacePath).1
  | _ => d

/-- Result of a content fetch for one file (getFileContent). -/
inductive FetchResult where
  | ok (content : Str)
  | err (msg : Str)
  deriving DecidableEq, Repr

/-- Model of `syncFiles` (src/syncManager.ts:206-268): fetch each file in tree
order; a fetch error aborts the rest of this repository and returns the count
so far; empty content is skipped (JavaScript falsiness of the empty string);
otherwise write to the mirror when `shouldUpdateFile` says so, count it, and
refresh the active projection of that file. -/
def syncFiles (p : Platform) (so : SymlinkOutcome) (cfg : List Str) (promptsDir : Str)
    (url : Str) (fetch : Str → FetchResult) :
    List GitTreeItem → SyncState → SyncState × Nat
  | [], st => (st, 0)
  | file :: rest, st =>
    match fetch file.path with
    | FetchResult.err _ => (st, 0)
    | FetchResult.ok content =>
      let fileName := getBasename file.path
      if content = [] then syncFiles p so cfg promptsDir url fetch rest st
      else if shouldUpdateFile st.mirrors url fileName content then
        let m2 := setMirror st.mirrors url fileName content
        let d2 := updateActivePromptSymlink p so cfg m2 promptsDir st.actDir fileName url
        let out := syncFiles p so cfg promptsDir url fetch rest ⟨m2, d2⟩
        (out.1, out.2 + 1)
      else syncFiles p so cfg promptsDir url fetch rest st

structure RepoConfig where
  url : Str
  branch : Str
  deriving DecidableEq, Repr

structure RepositorySyncResult where
  repository : Str
  success : Bool
  itemsUpdated : Nat
  error : Option Str
  deriving DecidableEq, Repr

structure MultiRepositorySyncResult where
  overallSuccess : Bool
  totalItemsUpdated : Nat
  repositories : List RepositorySyncResult
  errors : List Str
  deriving DecidableEq, Repr

/-- Environment a sync pass observes for one repository: either a thrown
error before any file content is fetched (missing context, failed
authentication, URL parse error, tree fetch error), or a fetched tree
together with the per-file content fetch results. -/
inductive RepoEnv where
  | failBefore (msg : Str)
  | fetched (tree : List GitTreeItem) (fetch : Str → FetchResult)

def promptLocationMsg : Str :=
  REPO_SYNC_CHAT_MODE_PATH ++ str ", " ++ REPO_SYNC_CHAT_MODE_LEGACY_PATH ++ str ", " ++
    REPO_SYNC_CHAT_MODE_LEGACY_SINGULAR_PATH ++ str ", " ++
    REPO_SYNC_INSTRUCTIONS_PATH ++ str ", " ++ REPO_SYNC_PROMPT_PATH

def noRelevantFilesEntryMsg : Str :=
  str "No relevant files found, make sure prompts are in valid directories: " ++
    promptLocationMsg

def noRelevantFilesShortMsg : Str := str "No relevant files found"

/-- One iteration of the repository loop in `syncMultipleRepositories`
(src/syncManager.ts:333-417): an exception anywhere in the body is captured
into a failed result for this repository; a tree with no relevant files is
recorded as a failure with the no-relevant-files error; otherwise the files
are synced and a successful result is recorded. The third component is the
entry pushed onto the errors array, which for the no-relevant-files case is
shorter than the per-result error string. -/
def syncOneRepository (p : Platform) (so : SymlinkOutcome) (fl : SyncFlags)
    (cfg : List Str) (promptsDir : Str) (env : Str → RepoEnv) (rc : RepoConfig)
    (st : SyncState) : SyncState × RepositorySyncResult × Option Str :=
  match env rc.url with
  | RepoEnv.failBefore msg =>
    (st, ⟨rc.url, false, 0, some msg⟩, some (rc.url ++ str ": " ++ msg))
  | RepoEnv.fetched tree fetch =>
    let relevantFiles := filterRelevantFiles fl tree
    if relevantFiles.length = 0 then
      (st, ⟨rc.url, false, 0, some noRelevantFilesEntryMsg⟩,
        some (rc.url ++ str ": " ++ noRelevantFilesShortMsg))
    else
      let out := syncFiles p so cfg promptsDir rc.url fetch relevantFiles st
      (out.1, ⟨rc.url, true, out.2, none⟩, none)

def syncMultiAux (p : Platform) (so : SymlinkOutcome) (fl : SyncFlags)
    (cfg : List Str) (promptsDir : Str) (env : Str → RepoEnv) :
    List RepoConfig → SyncState → SyncState × List RepositorySyncResult × List Str
  | [], st => (st, [], [])
  | rc :: rest, st =>
    let one := syncOneRepository p so fl cfg promptsDir env rc st
    let out := syncMultiAux p so fl cfg promptsDir env rest one.1
    (out.1, one.2.1 :: out.2.1, (one.2.2.toList) ++ out.2.2)

/-- Model of `syncMultipleRepositories` (src/syncManager.ts:326-427): process
every configured repository in order with per-repository error isolation;
overall success is the conjunction of the per-repository successes; the total
is the sum of the per-repository item counts; the errors list collects the
per-repository error strings in loop order. -/
def syncMultipleRepositories (p : Platform) (so : SymlinkOutcome) (fl : SyncFlags)
    (promptsDir : Str) (env : Str → RepoEnv) (cfgs : List RepoConfig)
    (st : SyncState) : SyncState × MultiRepositorySyncResult :=
  let out := syncMultiAux p so fl (cfgs.map (·.url)) promptsDir env cfgs st
  (out.1,
    ⟨out.2.1.all (·.success),
      (out.2.1.map (·.itemsUpdated)).sum,
      out.2.1,
      out.2.2⟩)

/-! Concrete inputs used by counterexamples and witnesses. -/

def exampleUrl : Str := str "https://github.com/a/b"

def exampleFileName : Str := str "x.prompt.md"

/-- A stale symlink target written under the current mirror layout:
storage root, the repos marker, the base64url slug of the URL, the file. -/
def staleTargetPath : Str := joinPath (getRepositoryPath exampleUrl) exampleFileName

def urlA : Str := str "https://github.com/a/r1"

def urlB : Str := str "https://github.com/b/r2"

def cfgPair : List Str := [urlA, urlB]

/-- Mirror state in which every configured repository holds x.prompt.md. -/
def mirrorPair : Str → Str → Bool := fun _ f => decide (f = exampleFileName)

def urlDotGit : Str := str "https://github.com/a/b.git"

/-- Two distinct URLs that reduce to the same computed repository identifier. -/
def cfgClash : List Str := [exampleUrl, urlDotGit]

def promptsDirEx : Str := str "/prompts"

/-- A user-authored plain file in the activation directory, unrelated to any
activation. -/
def userFileDir : ActDir :=
  [(joinPath promptsDirEx (str "notes.md"), FsEntry.file (str "my notes"))]

/-- Mirror holding exactly one file for the example repository. -/
def mirrorsSingle : Str → Str → Option Str :=
  fun u f =>
    if u = exampleUrl ∧ f = exampleFileName then some (str "mirrored content") else none

/-- Activation directory with a pre-existing user file at the workspace name
the activation will use. -/
def preexistingDir : ActDir :=
  [(joinPath promptsDirEx exampleFileName, FsEntry.file (str "user file"))]

def repoCfgEx : RepoConfig := ⟨exampleUrl, str "main"⟩

def flagsPromptOnly : SyncFlags := ⟨false, false, true⟩

/-- A tree in which two distinct blob paths share the basename x.md. -/
def dupTree : List GitTreeItem :=
  [⟨str "prompts/x.md", TreeType.blob⟩, ⟨str "prompts/sub/x.md", TreeType.blob⟩]

def dupFetch : Str → FetchResult :=
  fun pth => if pth = str "prompts/x.md" then FetchResult.ok (str "A")
    else FetchResult.ok (str "B")

def dupEnv : Str → RepoEnv := fun _ => RepoEnv.fetched dupTree dupFetch

def emptyState : SyncState := ⟨[], []⟩

/-- Environment whose tree yields no relevant files. -/
def emptyTreeEnv : Str → RepoEnv :=
  fun _ => RepoEnv.fetched [] (fun _ => FetchResult.err (str "unused"))

def okTree : List GitTreeItem := [⟨str "prompts/x.md", TreeType.blob⟩]

def okFetch : Str → FetchResult := fun _ => FetchResult.ok (str "A")

def okEnv : Str → RepoEnv := fun _ => RepoEnv.fetched okTree okFetch

/-- State in which the mirror already stores the content okFetch returns. -/
def okState : SyncState := ⟨[((exampleUrl, str "x.md"), str "A")], []⟩

/-- Activation directory holding one symlink and one unrelated user file. -/
def symlinkDirEx : ActDir :=
  [(joinPath promptsDirEx (str "a.md"), FsEntry.symlink (str "/target")),
    (joinPath promptsDirEx (str "b.md"), FsEntry.file (str "user"))]

end Promptitude

namespace Promptitude

theorem b64Val_b64Char : ∀ v, v < 64 → b64Val (b64Char v) = v := by decide

theorem b64Char_lt : ∀ v, b64Char v < 123 := by
  intro v
  unfold b64Char
  split
  · omega
  · split
    · omega
    · split
      · omega
      · split <;> omega

theorem char_code_roundtrip : ∀ c, c < 123 → (Char.ofNat c).toNat = c := by decide

theorem b64urlDecode_b64urlEncode (l : List Nat) (h : ∀ b ∈ l, b < 256) :
    b64urlDecode (b64urlEncode l) = l := by
  induction l using b64urlEncode.induct with
  | case1 => rfl
  | case2 b1 =>
    have h1 : b1 < 256 := h b1 (by simp)
    simp only [b64urlEncode, b64urlDecode]
    rw [b64Val_b64Char _ (by omega), b64Val_b64Char _ (by omega)]
    simp only [List.cons.injEq, and_true]
    omega
  | case3 b1 b2 =>
    have h1 : b1 < 256 := h b1 (by simp)
    have h2 : b2 < 256 := h b2 (by simp)
    simp only [b64urlEncode, b64urlDecode]
    rw [b64Val_b64Char _ (by omega), b64Val_b64Char _ (by omega),
      b64Val_b64Char _ (by omega)]
    simp only [List.cons.injEq, and_true]
    constructor <;> omega
  | case4 b1 b2 b3 rest ih =>
    have h1 : b1 < 256 := h b1 (by simp)
    have h2 : b2 < 256 := h b2 (by simp)
    have h3 : b3 < 256 := h b3 (by simp)
    simp only [b64urlEncode, b64urlDecode]
    rw [b64Val_b64Char _ (by omega), b64Val_b64Char _ (by omega),
      b64Val_b64Char _ (by omega), b64Val_b64Char _ (by omega)]
    refine List.cons_eq_cons.mpr ⟨by omega, List.cons_eq_cons.mpr ⟨by omega,
      List.cons_eq_cons.mpr ⟨by omega, ih ?_⟩⟩⟩
    intro b hb
    exact h b (by simp [hb])

theorem map_toNat_ofNat_b64 (l : List Nat) (h : ∀ c ∈ l, c < 123) :
    (l.map Char.ofNat).map Char.toNat = l := by
  rw [List.map_map]
  induction l with
  | nil => rfl
  | cons c rest ih =>
    simp only [List.map_cons, Function.comp_apply, List.cons.injEq]
    refine ⟨char_code_roundtrip c (h c (by simp)), ih ?_⟩
    intro x hx
    exact h x (by simp [hx])

theorem b64urlEncode_mem_lt (l : List Nat) : ∀ c ∈ b64urlEncode l, c < 123 := by
  induction l using b64urlEncode.induct with
  | case1 => intro c hc; simp [b64urlEncode] at hc
  | case2 b1 =>
    intro c hc
    simp only [b64urlEncode, List.mem_cons, List.mem_singleton, List.not_mem_nil,
      or_false] at hc
    rcases hc with rfl | rfl <;> exact b64Char_lt _
  | case3 b1 b2 =>
    intro c hc
    simp only [b64urlEncode, List.mem_cons, List.not_mem_nil, or_false] at hc
    rcases hc with rfl | rfl | rfl <;> exact b64Char_lt _
  | case4 b1 b2 b3 rest ih =>
    intro c hc
    simp only [b64urlEncode, List.mem_cons] at hc
    rcases hc with rfl | rfl | rfl | rfl | hmem
    · exact b64Char_lt _
    · exact b64Char_lt _
    · exact b64Char_lt _
    · exact b64Char_lt _
    · exact ih c hmem

/-- C2: for every repository URL (given by its UTF-8 byte sequence),
decodeRepositorySlug applied to encodeRepositorySlug of the URL yields the URL
back: the per-repository mirror directory slug is a reversible encoding. -/
theorem decode_encode_repositorySlug (urlBytes : List Nat)
    (h : ∀ b ∈ urlBytes, b < 256) :
    decodeRepositorySlug (encodeRepositorySlug urlBytes) = urlBytes := by
  unfold decodeRepositorySlug encodeRepositorySlug
  rw [map_toNat_ofNat_b64 _ (b64urlEncode_mem_lt urlBytes)]
  exact b64urlDecode_b64urlEncode urlBytes h

/-- Witness for C2 at the URL https://github.com/a/b. -/
theorem decode_encode_repositorySlug_witness :
    (∀ b ∈ exampleUrlBytes, b < 256) ∧
      decodeRepositorySlug (encodeRepositorySlug exampleUrlBytes) = exampleUrlBytes :=
  ⟨by decide, decode_encode_repositorySlug exampleUrlBytes (by decide)⟩

/-- C1 (code bug): applied to a stale target path laid out with the current
base64url slug encoding, the reverse-lookup of fixBrokenSymlinks returns a
repository URL, but not the owning one: it decodes the slug segment with a
legacy underscore scheme instead of decodeRepositorySlug, so the repair can
never find the current mirror of the same repository. -/
theorem extractRepositoryUrl_misdecodes_current_slug :
    (extractRepositoryUrlFromTargetPath staleTargetPath).isSome = true ∧
      extractRepositoryUrlFromTargetPath staleTargetPath ≠ some exampleUrl := by
  decide

/-! Association-list lemmas for the activation directory. -/

theorem removeEntry_cons (m : Str) (e : FsEntry) (d : ActDir) (n : Str) :
    removeEntry ((m, e) :: d) n =
      if m = n then removeEntry d n else (m, e) :: removeEntry d n := by
  by_cases h : m = n <;> simp [removeEntry, List.filter_cons, h]

theorem lookupEntry_cons (m : Str) (e : FsEntry) (d : ActDir) (n : Str) :
    lookupEntry ((m, e) :: d) n = if m = n then some e else lookupEntry d n := by
  by_cases h : m = n <;> simp [lookupEntry, List.find?_cons, h]

theorem lookupEntry_removeEntry_self (d : ActDir) (n : Str) :
    lookupEntry (removeEntry d n) n = none := by
  induction d with
  | nil => rfl
  | cons p rest ih =>
    obtain ⟨m, e⟩ := p
    rw [removeEntry_cons]
    by_cases h : m = n
    · rw [if_pos h]; exact ih
    · rw [if_neg h, lookupEntry_cons, if_neg h]; exact ih

theorem lookupEntry_removeEntry_ne (d : ActDir) (n m : Str) (h : m ≠ n) :
    lookupEntry (removeEntry d n) m = lookupEntry d m := by
  induction d with
  | nil => rfl
  | cons p rest ih =>
    obtain ⟨a, e⟩ := p
    rw [removeEntry_cons]
    by_cases ha : a = n
    · rw [if_pos ha, lookupEntry_cons, if_neg (by rintro rfl; exact h ha)]
      exact ih
    · rw [if_neg ha, lookupEntry_cons, lookupEntry_cons]
      by_cases ham : a = m
      · rw [if_pos ham, if_pos ham]
      · rw [if_neg ham, if_neg ham]; exact ih

theorem removeEntry_eq_self (d : ActDir) (n : Str) (h : lookupEntry d n = none) :
    removeEntry d n = d := by
  induction d with
  | nil => rfl
  | cons p rest ih =>
    obtain ⟨m, e⟩ := p
    rw [lookupEntry_cons] at h
    by_cases hm : m = n
    · rw [if_pos hm] at h; exact absurd h (by simp)
    · rw [if_neg hm] at h
      rw [removeEntry_cons, if_neg hm, ih h]

/-- C7 (amended): deactivatePrompt removes the target when it is a symlink;
it removes a plain file exactly when the platform is win32 (the copy-fallback
platform), regardless of how the file was created; on other platforms plain
files are never deleted; and no other name in the activation directory is
touched. -/
theorem deactivatePrompt_spec (p : Platform) (promptsDir : Str) (d : ActDir)
    (name : Str) :
    ((∃ tgt, lookupEntry d (joinPath promptsDir name) = some (FsEntry.symlink tgt)) →
      lookupEntry (deactivatePrompt p promptsDir d name) (joinPath promptsDir name) = none) ∧
    (∀ c, lookupEntry d (joinPath promptsDir name) = some (FsEntry.file c) →
      p = Platform.win32 →
      lookupEntry (deactivatePrompt p promptsDir d name) (joinPath promptsDir name) = none) ∧
    (∀ c, lookupEntry d (joinPath promptsDir name) = some (FsEntry.file c) →
      p ≠ Platform.win32 → deactivatePrompt p promptsDir d name = d) ∧
    (∀ m, m ≠ joinPath promptsDir name →
      lookupEntry (deactivatePrompt p promptsDir d name) m = lookupEntry d m) := by
  refine ⟨?_, ?_, ?_, ?_⟩
  · rintro ⟨tgt, h⟩
    simp only [deactivatePrompt, removePromptSymlink, h]
    exact lookupEntry_removeEntry_self d _
  · intro c h hp
    simp only [deactivatePrompt, removePromptSymlink, h, hp, if_pos]
    exact lookupEntry_removeEntry_self d _
  · intro c h hp
    simp only [deactivatePrompt, removePromptSymlink, h]
    rw [if_neg hp]
  · intro m hm
    cases hl : lookupEntry d (joinPath promptsDir name) with
    | none => simp only [deactivatePrompt, removePromptSymlink, hl]
    | some e =>
      cases e with
      | symlink tgt =>
        simp only [deactivatePrompt, removePromptSymlink, hl]
        exact lookupEntry_removeEntry_ne d _ m hm
      | file c =>
        simp only [deactivatePrompt, removePromptSymlink, hl]
        by_cases hp : p = Platform.win32
        · rw [if_pos hp]; exact lookupEntry_removeEntry_ne d _ m hm
        · rw [if_neg hp]

/-- Witness for C7 (amended): on unix, deactivating a symlinked name removes
exactly that entry and an unrelated user file is untouched. -/
theorem deactivatePrompt_spec_witness :
    lookupEntry (deactivatePrompt Platform.unix promptsDirEx symlinkDirEx (str "a.md"))
        (joinPath promptsDirEx (str "a.md")) = none ∧
      lookupEntry (deactivatePrompt Platform.unix promptsDirEx symlinkDirEx (str "a.md"))
          (joinPath promptsDirEx (str "b.md")) =
        lookupEntry symlinkDirEx (joinPath promptsDirEx (str "b.md")) :=
  ⟨(deactivatePrompt_spec Platform.unix promptsDirEx symlinkDirEx (str "a.md")).1
      ⟨str "/target", by decide⟩,
    (deactivatePrompt_spec Platform.unix promptsDirEx symlinkDirEx (str "a.md")).2.2.2
      (joinPath promptsDirEx (str "b.md")) (by decide)⟩

/-- C7 counterexample: on win32, a plain file that no copy-fallback activation
ever created (the state contains it from the start) is nevertheless deleted by
deactivate. -/
theorem deactivatePrompt_deletes_user_file_on_win32 :
    deactivatePrompt Platform.win32 promptsDirEx userFileDir (str "notes.md") = [] := by
  decide

/-- C10: when the repository URL is missing or the source file is absent from
the mirror of that repository, activatePrompt raises an error and performs no
mutation of the activation directory. -/
theorem activatePrompt_no_mutation_on_missing_source
    (p : Platform) (so : SymlinkOutcome) (cfg : List Str)
    (mirrors : Str → Str → Option Str) (promptsDir : Str) (d : ActDir)
    (promptPath : Str) (repositoryUrl : Option Str)
    (h : repositoryUrl = none ∨
      ∃ url, repositoryUrl = some url ∧ mirrors url promptPath = none) :
    (activatePrompt p so cfg mirrors promptsDir d promptPath repositoryUrl).1 = d ∧
    ∃ e, (activatePrompt p so cfg mirrors promptsDir d promptPath repositoryUrl).2 =
      Except.error e := by
  rcases h with rfl | ⟨url, rfl, hmir⟩
  · exact ⟨rfl, _, rfl⟩
  · simp [activatePrompt, hmir]

/-! Workspace-name collision lemmas. -/

theorem two_le_length_of_mem_ne {α : Type} {l : List α} {a b : α}
    (ha : a ∈ l) (hb : b ∈ l) (hab : a ≠ b) : 2 ≤ l.length := by
  cases l with
  | nil => cases ha
  | cons x xs =>
    rcases List.mem_cons.mp ha with rfl | ha1
    · rcases List.mem_cons.mp hb with rfl | hb1
      · exact absurd rfl hab
      · have h1 : 0 < xs.length := List.length_pos.mpr (List.ne_nil_of_mem hb1)
        simp only [List.length_cons]
        omega
    · have h1 : 0 < xs.length := List.length_pos.mpr (List.ne_nil_of_mem ha1)
      simp only [List.length_cons]
      omega

theorem collision_condition (cfg : List Str) (mh : Str → Str → Bool) (f u1 u2 : Str)
    (h1 : u1 ∈ cfg) (h2 : u2 ∈ cfg) (hne : u1 ≠ u2)
    (hf1 : mh u1 f = true) (hf2 : mh u2 f = true) :
    ¬ (cfg.filter (fun u => mh u f)).length ≤ 1 := by
  have m1 : u1 ∈ cfg.filter (fun u => mh u f) := List.mem_filter.mpr ⟨h1, hf1⟩
  have m2 : u2 ∈ cfg.filter (fun u => mh u f) := List.mem_filter.mpr ⟨h2, hf2⟩
  have h2le := two_le_length_of_mem_ne m1 m2 hne
  omega

theorem getUniqueWorkspaceName_xpromptmd (cfg : List Str) (mh : Str → Str → Bool)
    (u : Str) (hcol : ¬ (cfg.filter (fun v => mh v exampleFileName)).length ≤ 1) :
    getUniqueWorkspaceName cfg mh exampleFileName u =
      str "x.prompt@" ++ getRepositoryIdentifier u ++ str ".md" := by
  simp only [getUniqueWorkspaceName, if_neg hcol]
  rfl

theorem suffixedMid_ne (a b id1 id2 : Str) (h : id1 ≠ id2) :
    (a ++ '@' :: id1) ++ b ≠ (a ++ '@' :: id2) ++ b := by
  intro he
  apply h
  have h2 : a ++ '@' :: id1 = a ++ '@' :: id2 := List.append_cancel_right he
  have h3 : ('@' : Char) :: id1 = '@' :: id2 := List.append_cancel_left h2
  simpa using h3

/-- C3 counterexample: with two repositories both mirroring x.prompt.md, the
computed workspace name is x.prompt@a-r1.md, not the spec claimed
x@a-r1.prompt.md: the identifier goes before the last extension only. -/
theorem workspaceName_suffix_before_last_ext_only :
    getUniqueWorkspaceName cfgPair mirrorPair exampleFileName urlA =
        str "x.prompt@a-r1.md" ∧
      getUniqueWorkspaceName cfgPair mirrorPair exampleFileName urlA ≠
        str "x@a-r1.prompt.md" := by
  decide

/-- C3 (amended): when two distinct configured repositories both mirror
x.prompt.md, the workspace names are x.prompt@id1.md and x.prompt@id2.md,
where the identifiers come from getRepositoryIdentifier: the repository
identifier is inserted before the last extension .md, not before the full
compound extension .prompt.md. -/
theorem workspaceNames_for_colliding_xpromptmd (cfg : List Str)
    (mh : Str → Str → Bool) (u1 u2 : Str)
    (h1 : u1 ∈ cfg) (h2 : u2 ∈ cfg) (hne : u1 ≠ u2)
    (hf1 : mh u1 exampleFileName = true) (hf2 : mh u2 exampleFileName = true) :
    getUniqueWorkspaceName cfg mh exampleFileName u1 =
      str "x.prompt@" ++ getRepositoryIdentifier u1 ++ str ".md" ∧
    getUniqueWorkspaceName cfg mh exampleFileName u2 =
      str "x.prompt@" ++ getRepositoryIdentifier u2 ++ str ".md" :=
  ⟨getUniqueWorkspaceName_xpromptmd cfg mh u1
      (collision_condition cfg mh exampleFileName u1 u2 h1 h2 hne hf1 hf2),
    getUniqueWorkspaceName_xpromptmd cfg mh u2
      (collision_condition cfg mh exampleFileName u1 u2 h1 h2 hne hf1 hf2)⟩

/-- Witness for C3 (amended) at two concrete GitHub repositories. -/
theorem workspaceNames_for_colliding_xpromptmd_witness :
    getUniqueWorkspaceName cfgPair mirrorPair exampleFileName urlA =
      str "x.prompt@" ++ getRepositoryIdentifier urlA ++ str ".md" ∧
    getUniqueWorkspaceName cfgPair mirrorPair exampleFileName urlB =
      str "x.prompt@" ++ getRepositoryIdentifier urlB ++ str ".md" :=
  workspaceNames_for_colliding_xpromptmd cfgPair mirrorPair urlA urlB
    (by decide) (by decide) (by decide) (by decide) (by decide)

/-- C4 counterexample: two distinct repository URLs (one carrying the dot-git
suffix) reduce to the same computed identifier, so both colliding entries get
the same workspace name. -/
theorem workspaceName_collision_same_identifier :
    exampleUrl ≠ urlDotGit ∧
      getUniqueWorkspaceName cfgClash mirrorPair exampleFileName exampleUrl =
        getUniqueWorkspaceName cfgClash mirrorPair exampleFileName urlDotGit := by
  decide

/-- C4 (amended): for distinct configured repositories whose computed
repository identifiers differ, the workspace names for a shared file name
differ from each other and neither equals the bare file name. -/
theorem workspaceNames_differ_of_identifier_ne (cfg : List Str)
    (mh : Str → Str → Bool) (f u1 u2 : Str)
    (h1 : u1 ∈ cfg) (h2 : u2 ∈ cfg) (hne : u1 ≠ u2)
    (hid : getRepositoryIdentifier u1 ≠ getRepositoryIdentifier u2)
    (hf1 : mh u1 f = true) (hf2 : mh u2 f = true) :
    getUniqueWorkspaceName cfg mh f u1 ≠ getUniqueWorkspaceName cfg mh f u2 ∧
    getUniqueWorkspaceName cfg mh f u1 ≠ f ∧
    getUniqueWorkspaceName cfg mh f u2 ≠ f := by
  have hcol := collision_condition cfg mh f u1 u2 h1 h2 hne hf1 hf2
  cases hdot : lastDotIdx f with
  | none =>
    simp only [getUniqueWorkspaceName, if_neg hcol, hdot]
    refine ⟨?_, ?_, ?_⟩
    · intro he
      exact hid (by simpa using List.append_cancel_left he)
    · intro he
      have hlen := congrArg List.length he
      simp only [List.length_append, List.length_cons] at hlen
      omega
    · intro he
      have hlen := congrArg List.length he
      simp only [List.length_append, List.length_cons] at hlen
      omega
  | some i =>
    by_cases hi : 0 < i
    · simp only [getUniqueWorkspaceName, if_neg hcol, hdot, if_pos hi]
      have hsplit : f.take i ++ f.drop i = f := List.take_append_drop i f
      have hflen : (f.take i).length + (f.drop i).length = f.length := by
        rw [List.length_take, List.length_drop]
        omega
      refine ⟨suffixedMid_ne _ _ _ _ hid, ?_, ?_⟩
      · intro he
        have hlen := congrArg List.length he
        simp only [List.length_append, List.length_cons] at hlen
        omega
      · intro he
        have hlen := congrArg List.length he
        simp only [List.length_append, List.length_cons] at hlen
        omega
    · simp only [getUniqueWorkspaceName, if_neg hcol, hdot, if_neg hi]
      refine ⟨?_, ?_, ?_⟩
      · intro he
        exact hid (by simpa using List.append_cancel_left he)
      · intro he
        have hlen := congrArg List.length he
        simp only [List.length_append, List.length_cons] at hlen
        omega
      · intro he
        have hlen := congrArg List.length he
        simp only [List.length_append, List.length_cons] at hlen
        omega

/-- Witness for C4 (amended) at two concrete GitHub repositories with distinct
identifiers. -/
theorem workspaceNames_differ_witness :
    getUniqueWorkspaceName cfgPair mirrorPair exampleFileName urlA ≠
      getUniqueWorkspaceName cfgPair mirrorPair exampleFileName urlB ∧
    getUniqueWorkspaceName cfgPair mirrorPair exampleFileName urlA ≠ exampleFileName ∧
    getUniqueWorkspaceName cfgPair mirrorPair exampleFileName urlB ≠ exampleFileName :=
  workspaceNames_differ_of_identifier_ne cfgPair mirrorPair exampleFileName urlA urlB
    (by decide) (by decide) (by decide) (by decide) (by decide) (by decide)

/-! Activation round-trip lemmas. -/

theorem createPromptSymlink_ok (p : Platform) (so : SymlinkOutcome) (sc : Option Str)
    (d : ActDir) (sp tp : Str) (d2 : ActDir)
    (h : createPromptSymlink p so sc d sp tp = (d2, none)) :
    ∃ e, d2 = (tp, e) :: (if (lookupEntry d tp).isSome then removeEntry d tp else d) ∧
      ((∃ t, e = FsEntry.symlink t) ∨ (p = Platform.win32 ∧ ∃ c, e = FsEntry.file c)) := by
  cases so with
  | ok =>
    refine ⟨FsEntry.symlink sp, ?_, Or.inl ⟨sp, rfl⟩⟩
    have h1 := congrArg Prod.fst h
    simp only [createPromptSymlink] at h1
    exact h1.symm
  | eperm =>
    by_cases hp : p = Platform.win32
    · cases sc with
      | none =>
        have h2 := congrArg Prod.snd h
        simp [createPromptSymlink, hp] at h2
      | some c =>
        refine ⟨FsEntry.file c, ?_, Or.inr ⟨hp, c, rfl⟩⟩
        have h1 := congrArg Prod.fst h
        simp only [createPromptSymlink, hp, if_pos] at h1
        exact h1.symm
    · have h2 := congrArg Prod.snd h
      simp [createPromptSymlink, hp] at h2
  | other =>
    have h2 := congrArg Prod.snd h
    simp [createPromptSymlink] at h2

theorem activatePrompt_ok_inv (p : Platform) (so : SymlinkOutcome) (cfg : List Str)
    (mirrors : Str → Str → Option Str) (promptsDir : Str) (d : ActDir)
    (promptPath url : Str) (d2 : ActDir) (wn : Str)
    (hrun : activatePrompt p so cfg mirrors promptsDir d promptPath (some url) =
      (d2, Except.ok wn)) :
    wn = getUniqueWorkspaceName cfg (fun u f => (mirrors u f).isSome) promptPath url ∧
    ∃ content, mirrors url promptPath = some content ∧
      createPromptSymlink p so (some content) d
        (joinPath (getRepositoryPath url) promptPath) (joinPath promptsDir wn) =
        (d2, none) := by
  cases hmir : mirrors url promptPath with
  | none => simp [activatePrompt, hmir] at hrun
  | some content =>
    simp only [activatePrompt, hmir] at hrun
    cases hc : createPromptSymlink p so (some content) d
        (joinPath (getRepositoryPath url) promptPath)
        (joinPath promptsDir
          (getUniqueWorkspaceName cfg (fun u f => (mirrors u f).isSome) promptPath url)) with
    | mk dc ec =>
      rw [hc] at hrun
      cases ec with
      | none =>
        simp only at hrun
        injection hrun with hd hw
        injection hw with hw
        subst hd
        subst hw
        exact ⟨rfl, content, rfl, hc⟩
      | some e => simp at hrun

/-- C8 (amended): when no entry exists at the target workspace name before
activation and the activation succeeds, deactivating the returned workspace
name restores the activation directory exactly as it was. A pre-existing
entry at that name is removed by activate and not restored (see the
counterexample); mirror state is kept disjoint from the activation directory
in the model, as on disk, so neither operation can alter it. -/
theorem activate_deactivate_roundtrip (p : Platform) (so : SymlinkOutcome)
    (cfg : List Str) (mirrors : Str → Str → Option Str) (promptsDir : Str)
    (d d2 : ActDir) (promptPath url wn : Str)
    (hrun : activatePrompt p so cfg mirrors promptsDir d promptPath (some url) =
      (d2, Except.ok wn))
    (hfree : lookupEntry d (joinPath promptsDir wn) = none) :
    deactivatePrompt p promptsDir d2 wn = d := by
  obtain ⟨hwn, content, hmir, hc⟩ :=
    activatePrompt_ok_inv p so cfg mirrors promptsDir d promptPath url d2 wn hrun
  obtain ⟨e, hd2, hcases⟩ := createPromptSymlink_ok p so (some content) d
    (joinPath (getRepositoryPath url) promptPath) (joinPath promptsDir wn) d2 hc
  rw [hfree] at hd2
  simp only [Option.isSome_none, Bool.false_eq_true, if_false] at hd2
  subst hd2
  unfold deactivatePrompt removePromptSymlink
  rw [lookupEntry_cons, if_pos rfl]
  rcases hcases with ⟨t, rfl⟩ | ⟨hp, c, rfl⟩
  · rw [removeEntry_cons, if_pos rfl]
    exact removeEntry_eq_self d _ hfree
  · rw [if_pos hp, removeEntry_cons, if_pos rfl]
    exact removeEntry_eq_self d _ hfree

/-- C8 counterexample: a user file pre-existing at the target workspace name
is removed by activate and is not restored by the following deactivate, so
the round trip does not return the directory to its prior state. -/
theorem activate_deactivate_loses_preexisting_file :
    deactivatePrompt Platform.unix promptsDirEx
        (activatePrompt Platform.unix SymlinkOutcome.ok [exampleUrl] mirrorsSingle
          promptsDirEx preexistingDir exampleFileName (some exampleUrl)).1
        exampleFileName ≠ preexistingDir ∧
      lookupEntry
          (deactivatePrompt Platform.unix promptsDirEx
            (activatePrompt Platform.unix SymlinkOutcome.ok [exampleUrl] mirrorsSingle
              promptsDirEx preexistingDir exampleFileName (some exampleUrl)).1
            exampleFileName)
          (joinPath promptsDirEx exampleFileName) = none ∧
      lookupEntry preexistingDir (joinPath promptsDirEx exampleFileName) =
        some (FsEntry.file (str "user file")) := by
  decide

/-- Witness for C8 (amended): activating into an empty directory and
deactivating restores the empty directory. -/
theorem activate_deactivate_roundtrip_witness :
    deactivatePrompt Platform.unix promptsDirEx
        (activatePrompt Platform.unix SymlinkOutcome.ok [exampleUrl] mirrorsSingle
          promptsDirEx [] exampleFileName (some exampleUrl)).1 exampleFileName = [] :=
  activate_deactivate_roundtrip Platform.unix SymlinkOutcome.ok [exampleUrl]
    mirrorsSingle promptsDirEx []
    (activatePrompt Platform.unix SymlinkOutcome.ok [exampleUrl] mirrorsSingle
      promptsDirEx [] exampleFileName (some exampleUrl)).1
    exampleFileName exampleUrl exampleFileName (by decide) (by decide)

/-! Sync-loop lemmas. -/

theorem syncOneRepository_repository (p : Platform) (so : SymlinkOutcome) (fl : SyncFlags)
    (cfg : List Str) (pd : Str) (env : Str → RepoEnv) (rc : RepoConfig) (st : SyncState) :
    ((syncOneRepository p so fl cfg pd env rc st).2.1).repository = rc.url := by
  cases henv : env rc.url with
  | failBefore msg => simp [syncOneRepository, henv]
  | fetched tree fetch =>
    by_cases h : (filterRelevantFiles fl tree).length = 0
    · simp [syncOneRepository, henv, h]
    · simp [syncOneRepository, henv, h]

theorem syncOneRepository_error_captured (p : Platform) (so : SymlinkOutcome)
    (fl : SyncFlags) (cfg : List Str) (pd : Str) (env : Str → RepoEnv) (rc : RepoConfig)
    (st : SyncState) :
    ((syncOneRepository p so fl cfg pd env rc st).2.1).success = false →
      ((syncOneRepository p so fl cfg pd env rc st).2.1).error.isSome = true := by
  cases henv : env rc.url with
  | failBefore msg => intro _; simp [syncOneRepository, henv]
  | fetched tree fetch =>
    by_cases h : (filterRelevantFiles fl tree).length = 0
    · intro _; simp [syncOneRepository, henv, h]
    · simp [syncOneRepository, henv, h]

theorem syncMultiAux_map_repository (p : Platform) (so : SymlinkOutcome) (fl : SyncFlags)
    (cfg : List Str) (pd : Str) (env : Str → RepoEnv) (cfgs : List RepoConfig) :
    ∀ st : SyncState,
      ((syncMultiAux p so fl cfg pd env cfgs st).2.1).map (·.repository) =
        cfgs.map (·.url) := by
  induction cfgs with
  | nil => intro st; rfl
  | cons rc rest ih =>
    intro st
    simp only [syncMultiAux, List.map_cons]
    rw [syncOneRepository_repository p so fl cfg pd env rc st, ih]

theorem syncMultiAux_error_captured (p : Platform) (so : SymlinkOutcome) (fl : SyncFlags)
    (cfg : List Str) (pd : Str) (env : Str → RepoEnv) (cfgs : List RepoConfig) :
    ∀ (st : SyncState) (r : RepositorySyncResult),
      r ∈ (syncMultiAux p so fl cfg pd env cfgs st).2.1 →
      r.success = false → r.error.isSome = true := by
  induction cfgs with
  | nil => intro st r hr; cases hr
  | cons rc rest ih =>
    intro st r hr
    simp only [syncMultiAux, List.mem_cons] at hr
    rcases hr with rfl | hr
    · exact syncOneRepository_error_captured p so fl cfg pd env rc st
    · exact ih _ r hr

/-- C5: syncMultipleRepositories produces exactly one result per configured
repository in configured order (so later repositories are processed no matter
how earlier ones fail), every failed repository carries an error in its own
result entry, and the overall success flag is true iff every per-repository
result is successful. -/
theorem syncMultipleRepositories_isolation_and_success (p : Platform)
    (so : SymlinkOutcome) (fl : SyncFlags) (pd : Str) (env : Str → RepoEnv)
    (cfgs : List RepoConfig) (st : SyncState) :
    ((syncMultipleRepositories p so fl pd env cfgs st).2.repositories).map
        (·.repository) = cfgs.map (·.url) ∧
    ((syncMultipleRepositories p so fl pd env cfgs st).2.overallSuccess = true ↔
      ∀ r ∈ (syncMultipleRepositories p so fl pd env cfgs st).2.repositories,
        r.success = true) ∧
    (∀ r ∈ (syncMultipleRepositories p so fl pd env cfgs st).2.repositories,
      r.success = false → r.error.isSome = true) := by
  refine ⟨?_, ?_, ?_⟩
  · simpa [syncMultipleRepositories] using
      syncMultiAux_map_repository p so fl (cfgs.map (·.url)) pd env cfgs st
  · simp [syncMultipleRepositories, List.all_eq_true]
  · intro r hr
    simp only [syncMultipleRepositories] at hr
    exact syncMultiAux_error_captured p so fl (cfgs.map (·.url)) pd env cfgs st r hr

/-- Witness for C5 at a concrete single-repository configuration. -/
theorem syncMultipleRepositories_isolation_witness :
    ((syncMultipleRepositories Platform.unix SymlinkOutcome.ok flagsPromptOnly
          promptsDirEx emptyTreeEnv [repoCfgEx] emptyState).2.repositories).map
        (·.repository) = [repoCfgEx].map (·.url) ∧
    ((syncMultipleRepositories Platform.unix SymlinkOutcome.ok flagsPromptOnly
          promptsDirEx emptyTreeEnv [repoCfgEx] emptyState).2.overallSuccess = true ↔
      ∀ r ∈ (syncMultipleRepositories Platform.unix SymlinkOutcome.ok flagsPromptOnly
          promptsDirEx emptyTreeEnv [repoCfgEx] emptyState).2.repositories,
        r.success = true) ∧
    (∀ r ∈ (syncMultipleRepositories Platform.unix SymlinkOutcome.ok flagsPromptOnly
          promptsDirEx emptyTreeEnv [repoCfgEx] emptyState).2.repositories,
      r.success = false → r.error.isSome = true) :=
  syncMultipleRepositories_isolation_and_success Platform.unix SymlinkOutcome.ok
    flagsPromptOnly promptsDirEx emptyTreeEnv [repoCfgEx] emptyState

theorem syncOneRepository_noRelevant (p : Platform) (so : SymlinkOutcome) (fl : SyncFlags)
    (cfg : List Str) (pd : Str) (env : Str → RepoEnv) (rc : RepoConfig) (st : SyncState)
    (tree : List GitTreeItem) (fetch : Str → FetchResult)
    (henv : env rc.url = RepoEnv.fetched tree fetch)
    (hnone : filterRelevantFiles fl tree = []) :
    syncOneRepository p so fl cfg pd env rc st =
      (st, ⟨rc.url, false, 0, some noRelevantFilesEntryMsg⟩,
        some (rc.url ++ str ": " ++ noRelevantFilesShortMsg)) := by
  simp [syncOneRepository, henv, hnone]

theorem syncMultiAux_noRelevant_entry (p : Platform) (so : SymlinkOutcome) (fl : SyncFlags)
    (cfg : List Str) (pd : Str) (env : Str → RepoEnv) (rc : RepoConfig)
    (post : List RepoConfig) (tree : List GitTreeItem) (fetch : Str → FetchResult)
    (henv : env rc.url = RepoEnv.fetched tree fetch)
    (hnone : filterRelevantFiles fl tree = []) :
    ∀ (pre : List RepoConfig) (st : SyncState),
      ((syncMultiAux p so fl cfg pd env (pre ++ rc :: post) st).2.1).get? pre.length =
        some ⟨rc.url, false, 0, some noRelevantFilesEntryMsg⟩ := by
  intro pre
  induction pre with
  | nil =>
    intro st
    simp only [List.nil_append, syncMultiAux,
      syncOneRepository_noRelevant p so fl cfg pd env rc st tree fetch henv hnone]
    rfl
  | cons c pre ih =>
    intro st
    simp only [List.cons_append, syncMultiAux, List.length_cons]
    rw [List.get?_cons_succ]
    exact ih _

/-- C6: a repository whose fetched tree yields zero files passing the
category and extension filter is recorded as a failed result (success false,
zero items, the no-relevant-files error) at its position in the report, and
the remaining repositories are still processed: the result list has one entry
for every configured repository. -/
theorem syncAll_noRelevantFiles_failure (p : Platform) (so : SymlinkOutcome)
    (fl : SyncFlags) (pd : Str) (env : Str → RepoEnv) (pre post : List RepoConfig)
    (rc : RepoConfig) (st : SyncState) (tree : List GitTreeItem)
    (fetch : Str → FetchResult)
    (henv : env rc.url = RepoEnv.fetched tree fetch)
    (hnone : filterRelevantFiles fl tree = []) :
    ((syncMultipleRepositories p so fl pd env (pre ++ rc :: post) st).2.repositories).get?
        pre.length = some ⟨rc.url, false, 0, some noRelevantFilesEntryMsg⟩ ∧
    ((syncMultipleRepositories p so fl pd env (pre ++ rc :: post) st).2.repositories).length =
      pre.length + 1 + post.length := by
  constructor
  · simpa [syncMultipleRepositories] using
      syncMultiAux_noRelevant_entry p so fl ((pre ++ rc :: post).map (·.url)) pd env rc
        post tree fetch henv hnone pre st
  · have hm := syncMultiAux_map_repository p so fl ((pre ++ rc :: post).map (·.url)) pd env
      (pre ++ rc :: post) st
    have hl := congrArg List.length hm
    simp only [List.length_map, List.length_append, List.length_cons] at hl
    simp only [syncMultipleRepositories, List.length_append, List.length_cons]
    omega

/-- Witness for C6 at a repository whose tree is empty. -/
theorem syncAll_noRelevantFiles_witness :
    ((syncMultipleRepositories Platform.unix SymlinkOutcome.ok flagsPromptOnly promptsDirEx
          emptyTreeEnv ([] ++ repoCfgEx :: []) emptyState).2.repositories).get?
        (List.length ([] : List RepoConfig)) =
      some ⟨repoCfgEx.url, false, 0, some noRelevantFilesEntryMsg⟩ ∧
    ((syncMultipleRepositories Platform.unix SymlinkOutcome.ok flagsPromptOnly promptsDirEx
          emptyTreeEnv ([] ++ repoCfgEx :: []) emptyState).2.repositories).length =
      List.length ([] : List RepoConfig) + 1 + List.length ([] : List RepoConfig) :=
  syncAll_noRelevantFiles_failure Platform.unix SymlinkOutcome.ok flagsPromptOnly
    promptsDirEx emptyTreeEnv [] [] repoCfgEx emptyState []
    (fun _ => FetchResult.err (str "unused")) rfl (by decide)

theorem syncFiles_no_change (p : Platform) (so : SymlinkOutcome) (cfg : List Str)
    (pd : Str) (url : Str) (fetch : Str → FetchResult) (files : List GitTreeItem)
    (st : SyncState)
    (h : ∀ item ∈ files, ∀ c, fetch item.path = FetchResult.ok c →
      c = [] ∨ lookupMirror st.mirrors url (getBasename item.path) = some c) :
    syncFiles p so cfg pd url fetch files st = (st, 0) := by
  induction files with
  | nil => rfl
  | cons file rest ih =>
    have hrest : ∀ item ∈ rest, ∀ c, fetch item.path = FetchResult.ok c →
        c = [] ∨ lookupMirror st.mirrors url (getBasename item.path) = some c :=
      fun item hit c hc => h item (by simp [hit]) c hc
    cases hf : fetch file.path with
    | err m => simp [syncFiles, hf]
    | ok c =>
      by_cases hce : c = []
      · simp only [syncFiles, hf]
        rw [if_pos hce]
        exact ih hrest
      · have hc : lookupMirror st.mirrors url (getBasename file.path) = some c :=
          (h file (by simp) c hf).resolve_left hce
        have hsu : shouldUpdateFile st.mirrors url (getBasename file.path) c = false := by
          simp [shouldUpdateFile, hc]
        simp only [syncFiles, hf]
        rw [if_neg hce]
        simp only [hsu, Bool.false_eq_true, if_false]
        exact ih hrest

theorem syncOneRepository_no_change (p : Platform) (so : SymlinkOutcome) (fl : SyncFlags)
    (cfg : List Str) (pd : Str) (env : Str → RepoEnv) (rc : RepoConfig) (st : SyncState)
    (h : ∀ tree fetch, env rc.url = RepoEnv.fetched tree fetch →
      ∀ item ∈ filterRelevantFiles fl tree, ∀ c, fetch item.path = FetchResult.ok c →
        c = [] ∨ lookupMirror st.mirrors rc.url (getBasename item.path) = some c) :
    (syncOneRepository p so fl cfg pd env rc st).1 = st ∧
    ((syncOneRepository p so fl cfg pd env rc st).2.1).itemsUpdated = 0 := by
  cases henv : env rc.url with
  | failBefore msg => simp [syncOneRepository, henv]
  | fetched tree fetch =>
    by_cases hz : (filterRelevantFiles fl tree).length = 0
    · simp [syncOneRepository, henv, hz]
    · have hsf := syncFiles_no_change p so cfg pd rc.url fetch
        (filterRelevantFiles fl tree) st (h tree fetch henv)
      simp [syncOneRepository, henv, hz, hsf]

theorem syncMultiAux_no_change (p : Platform) (so : SymlinkOutcome) (fl : SyncFlags)
    (cfg : List Str) (pd : Str) (env : Str → RepoEnv) (cfgs : List RepoConfig)
    (st : SyncState)
    (h : ∀ rc ∈ cfgs, ∀ tree fetch, env rc.url = RepoEnv.fetched tree fetch →
      ∀ item ∈ filterRelevantFiles fl tree, ∀ c, fetch item.path = FetchResult.ok c →
        c = [] ∨ lookupMirror st.mirrors rc.url (getBasename item.path) = some c) :
    (syncMultiAux p so fl cfg pd env cfgs st).1 = st ∧
    ∀ r ∈ (syncMultiAux p so fl cfg pd env cfgs st).2.1, r.itemsUpdated = 0 := by
  induction cfgs with
  | nil => exact ⟨rfl, by intro r hr; cases hr⟩
  | cons rc rest ih =>
    have hone := syncOneRepository_no_change p so fl cfg pd env rc st
      (h rc (by simp))
    have hrest : ∀ rc2 ∈ rest, ∀ tree fetch, env rc2.url = RepoEnv.fetched tree fetch →
        ∀ item ∈ filterRelevantFiles fl tree, ∀ c, fetch item.path = FetchResult.ok c →
          c = [] ∨ lookupMirror st.mirrors rc2.url (getBasename item.path) = some c :=
      fun rc2 h2 => h rc2 (by simp [h2])
    obtain ⟨ihst, ihr⟩ := ih hrest
    constructor
    · simp only [syncMultiAux]
      rw [hone.1]
      exact ihst
    · intro r hr
      simp only [syncMultiAux, List.mem_cons, hone.1] at hr
      rcases hr with rfl | hr
      · exact hone.2
      · exact ihr r hr

/-- C9 (amended): a sync pass in which every successfully fetched relevant
file is either empty or already stored byte-for-byte in the mirror under its
basename (the state a prior pass leaves behind when no two relevant paths of
one repository share a basename with different contents) reports itemsUpdated
zero for every repository and leaves mirror and activation directory
unchanged; a mirror write counts as an update exactly when shouldUpdateFile
holds, that is, when the file is absent or its stored content differs. -/
theorem syncAll_idempotent_when_mirror_current (p : Platform) (so : SymlinkOutcome)
    (fl : SyncFlags) (pd : Str) (env : Str → RepoEnv) (cfgs : List RepoConfig)
    (st : SyncState)
    (h : ∀ rc ∈ cfgs, ∀ tree fetch, env rc.url = RepoEnv.fetched tree fetch →
      ∀ item ∈ filterRelevantFiles fl tree, ∀ c, fetch item.path = FetchResult.ok c →
        c = [] ∨ lookupMirror st.mirrors rc.url (getBasename item.path) = some c) :
    (syncMultipleRepositories p so fl pd env cfgs st).1 = st ∧
    (∀ r ∈ (syncMultipleRepositories p so fl pd env cfgs st).2.repositories,
      r.itemsUpdated = 0) ∧
    (syncMultipleRepositories p so fl pd env cfgs st).2.totalItemsUpdated = 0 := by
  obtain ⟨hst, hr⟩ := syncMultiAux_no_change p so fl (cfgs.map (·.url)) pd env cfgs st h
  refine ⟨hst, hr, ?_⟩
  simp only [syncMultipleRepositories]
  exact List.sum_eq_zero (by
    intro x hx
    simp only [List.mem_map] at hx
    obtain ⟨r, hrm, rfl⟩ := hx
    exact hr r hrm)

/-- C9 counterexample: two relevant blob paths of one repository share the
basename x.md with different contents; with unchanged upstream content, the
second pass again reports two items updated, not zero. -/
theorem second_sync_not_idempotent_with_duplicate_basenames :
    ((syncMultipleRepositories Platform.unix SymlinkOutcome.ok flagsPromptOnly promptsDirEx
            dupEnv [repoCfgEx]
            (syncMultipleRepositories Platform.unix SymlinkOutcome.ok flagsPromptOnly
              promptsDirEx dupEnv [repoCfgEx] emptyState).1).2.repositories).map
        (·.itemsUpdated) = [2] ∧
      ¬ (∀ r ∈ (syncMultipleRepositories Platform.unix SymlinkOutcome.ok flagsPromptOnly
            promptsDirEx dupEnv [repoCfgEx]
            (syncMultipleRepositories Platform.unix SymlinkOutcome.ok flagsPromptOnly
              promptsDirEx dupEnv [repoCfgEx] emptyState).1).2.repositories,
          r.itemsUpdated = 0) := by
  decide

/-- Witness for C9 (amended): a pass over a mirror that already stores the
fetched content reports zero updates and changes nothing. -/
theorem syncAll_idempotent_witness :
    (syncMultipleRepositories Platform.unix SymlinkOutcome.ok flagsPromptOnly promptsDirEx
        okEnv [repoCfgEx] okState).1 = okState ∧
    (∀ r ∈ (syncMultipleRepositories Platform.unix SymlinkOutcome.ok flagsPromptOnly
        promptsDirEx okEnv [repoCfgEx] okState).2.repositories, r.itemsUpdated = 0) ∧
    (syncMultipleRepositories Platform.unix SymlinkOutcome.ok flagsPromptOnly promptsDirEx
        okEnv [repoCfgEx] okState).2.totalItemsUpdated = 0 :=
  syncAll_idempotent_when_mirror_current Platform.unix SymlinkOutcome.ok flagsPromptOnly
    promptsDirEx okEnv [repoCfgEx] okState (by
      intro rc hrc tree fetch henv item hitem c hc
      simp only [List.mem_singleton] at hrc
      subst hrc
      injection henv with h1 h2
      subst h1
      subst h2
      have hfil : filterRelevantFiles flagsPromptOnly okTree =
          [⟨str "prompts/x.md", TreeType.blob⟩] := by decide
      rw [hfil] at hitem
      simp only [List.mem_singleton] at hitem
      subst hitem
      injection hc with hc
      subst hc
      right
      decide)

/-- Witness for C10: activating a file absent from the mirror errors without
touching the directory. -/
theorem activatePrompt_no_mutation_witness :
    (activatePrompt Platform.unix SymlinkOutcome.ok cfgPair mirrorsSingle promptsDirEx
        userFileDir (str "missing.md") (some exampleUrl)).1 = userFileDir ∧
    ∃ e, (activatePrompt Platform.unix SymlinkOutcome.ok cfgPair mirrorsSingle promptsDirEx
        userFileDir (str "missing.md") (some exampleUrl)).2 = Except.error e :=
  activatePrompt_no_mutation_on_missing_source Platform.unix SymlinkOutcome.ok cfgPair
    mirrorsSingle promptsDirEx userFileDir (str "missing.md") (some exampleUrl)
    (Or.inr ⟨exampleUrl, rfl, by decide⟩)

end Promptitude
